import Mathlib

/-
Shallow embedding of the CDEXonAltHash/Token-Swap Solana program.

The repository holds two variants of the same program: `src/lib.rs` (the
library crate, namespace `Lib` below) and `src/main.rs` (namespace `Main`).
Both define a dispatcher `process_instruction` over four handlers
(transfer, mint, burn, and the configuration initializer).  The shared data
model (byte strings, the persisted `TokenConfig` record and its borsh
encoding, the spl-token instruction shapes) is identical in the two files
and is embedded once, at top level.

Machine integers are `Nat` with an explicit `% 2 ^ 64` where the Rust code
performs 64-bit arithmetic that can overflow; on-chain (release-profile)
Rust `u64` addition wraps modulo `2 ^ 64`, which is modelled explicitly at
the supply-cap check.  Account data is `List Byte` with `Byte := Fin 256`.
The external ledger (spl-token program reached through `invoke`) is
modelled as an oracle `Ledger` mapping an issued instruction to a result,
per the spec's collaborator interface; each handler records the
instructions it issues to the ledger.
-/

set_option autoImplicit false

namespace TokenSwap

/-- One byte of account or instruction data. -/
abbrev Byte := Fin 256

/-- Little-endian interpretation of a byte string, as in Rust's
`u64::from_le_bytes` (applied only to strings of length 8 in the code). -/
def fromLeBytes : List Byte → Nat
  | [] => 0
  | b :: t => b.val + 256 * fromLeBytes t

/-- Little-endian byte string of width `w` for `n`, as in Rust's
`u64::to_le_bytes` / borsh's `u64` encoding (with `w = 8`). -/
def u64ToLe : Nat → Nat → List Byte
  | 0, _ => []
  | w + 1, n => (⟨n % 256, by omega⟩ : Byte) :: u64ToLe w (n / 256)

/-- The error values the program surfaces: the `solana_program`
`ProgramError` variants it uses, with `Custom n` for the program's own
`CustomError` enum. -/
inductive ProgramError where
  | InvalidInstructionData
  | InvalidAccountData
  | AccountAlreadyInitialized
  | MissingRequiredSignature
  | NotEnoughAccountKeys
  | UninitializedAccount
  | BorshIoFailed
  | Custom (code : Nat)
deriving DecidableEq

/-- `CustomError::MaxSupplyExceeded = 0x1` as a `ProgramError`. -/
def maxSupplyExceededErr : ProgramError := ProgramError.Custom 1

/-- `CustomError::UnauthorizedMint = 0x2` as a `ProgramError` (lib.rs only). -/
def unauthorizedMintErr : ProgramError := ProgramError.Custom 2

/-- `CustomError::InvalidAmount = 0x3` as a `ProgramError` (lib.rs only). -/
def invalidAmountErr : ProgramError := ProgramError.Custom 3

/-- The slice of a Solana `AccountInfo` the program reads: the account's
pubkey, its signer flag, and its data bytes. -/
structure AccountInfo where
  key : List Byte
  is_signer : Bool
  data : List Byte
deriving DecidableEq

/-- The persisted Configuration Record (`TokenConfig` in both files):
fields in source order `max_supply`, `initialized`, `admin_pubkey`. -/
structure TokenConfig where
  max_supply : Nat
  initialized : Bool
  admin_pubkey : List Byte
deriving DecidableEq

/-- `TokenConfig::default()`: zero supply, not initialized, all-zero key. -/
def tokenConfigDefault : TokenConfig :=
  ⟨0, false, List.replicate 32 (0 : Byte)⟩

/-- Borsh serialization of `TokenConfig`: `max_supply` as 8 little-endian
bytes, `initialized` as one byte (0 or 1), `admin_pubkey` as its 32 raw
bytes, in that field order. -/
def tokenConfigToBytes (c : TokenConfig) : List Byte :=
  u64ToLe 8 c.max_supply ++
    (if c.initialized then (1 : Byte) else (0 : Byte)) :: c.admin_pubkey

/-- `TokenConfig::try_from_slice`: borsh deserialization, which fails unless
the slice is consumed exactly (8 + 1 + 32 = 41 bytes) and the boolean byte
is 0 or 1. -/
def tokenConfigFromSlice (data : List Byte) : Option TokenConfig :=
  if data.length = 41 then
    match data.get? 8 with
    | some b =>
      if b.val = 0 then
        some ⟨fromLeBytes (data.take 8), false, data.drop 9⟩
      else if b.val = 1 then
        some ⟨fromLeBytes (data.take 8), true, data.drop 9⟩
      else none
    | none => none
  else none

/-- `token_config.serialize(&mut *config_data)`: borsh writes the record
into the account's data buffer through the `Write` impl for `&mut [u8]`.
If the buffer is at least as long as the serialized form the write
succeeds and the tail of the buffer is untouched; a shorter buffer gets
the fitting prefix written and the call fails (surfaced as a borsh io
error through `?`). -/
def serializeConfigInto (c : TokenConfig) (buf : List Byte) :
    Except ProgramError Unit × List Byte :=
  let out := tokenConfigToBytes c
  if out.length ≤ buf.length then
    (Except.ok (), out ++ buf.drop out.length)
  else
    (Except.error ProgramError.BorshIoFailed, out.take buf.length)

/-- The spl-token instructions this program builds and issues through
`invoke`: the shapes of `spl_token::instruction::{transfer, mint_to, burn}`
as the program fills them in. -/
inductive SplInstruction where
  | transferIx (tokenProgram source dest authority : List Byte) (amount : Nat)
  | mintToIx (tokenProgram mint dest authority : List Byte) (amount : Nat)
  | burnIx (tokenProgram source mint authority : List Byte) (amount : Nat)
deriving DecidableEq

/-- The external ledger (the spl-token program reached through `invoke`),
modelled at the spec's collaborator boundary as an oracle from an issued
instruction to its pass-through result. -/
def Ledger := SplInstruction → Except ProgramError Unit

instance exceptDecEq {ε α : Type} [DecidableEq ε] [DecidableEq α] :
    DecidableEq (Except ε α) := fun a b =>
  match a, b with
  | Except.ok x, Except.ok y =>
    if h : x = y then isTrue (by rw [h]) else isFalse (by simp [h])
  | Except.error x, Except.error y =>
    if h : x = y then isTrue (by rw [h]) else isFalse (by simp [h])
  | Except.ok _, Except.error _ => isFalse (by simp)
  | Except.error _, Except.ok _ => isFalse (by simp)

/-- The observable outcome of one handler run: its result, the account list
afterwards (only the Configuration Record's data is ever written locally),
and the instructions issued to the external ledger. -/
structure HandlerOut where
  res : Except ProgramError Unit
  accounts : List AccountInfo
  invocations : List SplInstruction
deriving DecidableEq

/-- Model of the external `spl_token::state::Mint::unpack` at the interface
boundary the spec gives for the ledger collaborator (a readable mint-state
record exposing the current outstanding supply): an 82-byte record whose
`supply` field occupies bytes 36..43 little-endian and whose
initialization flag is byte 45.  Validation of the record's remaining
(external) fields is elided; no claim depends on a malformed mint-state
record. -/
def unpackMintSupply (data : List Byte) : Except ProgramError Nat :=
  if data.length = 82 then
    match data.get? 45 with
    | some b =>
      if b.val = 1 then Except.ok (fromLeBytes ((data.drop 36).take 8))
      else if b.val = 0 then Except.error ProgramError.UninitializedAccount
      else Except.error ProgramError.InvalidAccountData
    | none => Except.error ProgramError.InvalidAccountData
  else Except.error ProgramError.InvalidAccountData

namespace Lib

/-- lib.rs `decode_amount`: exactly 8 bytes, little-endian u64; any other
length fails with `CustomError::InvalidAmount`. -/
def decode_amount (data : List Byte) : Except ProgramError Nat :=
  if data.length = 8 then Except.ok (fromLeBytes data)
  else Except.error invalidAmountErr

/-- lib.rs `check_signer`: fails with `MissingRequiredSignature` unless the
account's signer flag is set. -/
def check_signer (account : AccountInfo) : Except ProgramError Unit :=
  if account.is_signer then Except.ok ()
  else Except.error ProgramError.MissingRequiredSignature

/-- lib.rs `process_transfer`: decode the amount (8 bytes, else
`InvalidAmount`), reject zero with `InvalidAmount`, take the four accounts
in order, build the spl transfer instruction and issue it.  No local
signature check and no local state write. -/
def process_transfer (ledger : Ledger) (accounts : List AccountInfo)
    (instruction_data : List Byte) : HandlerOut :=
  match decode_amount instruction_data with
  | Except.error e => ⟨Except.error e, accounts, []⟩
  | Except.ok amount =>
    if amount = 0 then ⟨Except.error invalidAmountErr, accounts, []⟩
    else
      match accounts with
      | from_account :: to_account :: authority :: token_program :: _ =>
        let ix := SplInstruction.transferIx token_program.key from_account.key
          to_account.key authority.key amount
        ⟨ledger ix, accounts, [ix]⟩
      | _ => ⟨Except.error ProgramError.NotEnoughAccountKeys, accounts, []⟩

/-- lib.rs `process_mint`: decode the amount, take the five accounts, check
the mint authority signed, load the Configuration Record, compare the
authority to the admin key (`UnauthorizedMint` on mismatch), read the
outstanding supply from the mint-state account, enforce the supply cap
(the Rust `current_supply + amount` is an unchecked u64 addition, which
wraps modulo `2 ^ 64` in on-chain release builds — modelled explicitly),
then build and issue the spl mint_to instruction. -/
def process_mint (ledger : Ledger) (accounts : List AccountInfo)
    (instruction_data : List Byte) : HandlerOut :=
  match decode_amount instruction_data with
  | Except.error e => ⟨Except.error e, accounts, []⟩
  | Except.ok amount =>
    match accounts with
    | mint_account :: destination_account :: mint_authority ::
        token_program :: config_account :: _ =>
      match check_signer mint_authority with
      | Except.error e => ⟨Except.error e, accounts, []⟩
      | Except.ok _ =>
        match tokenConfigFromSlice config_account.data with
        | none => ⟨Except.error ProgramError.InvalidAccountData, accounts, []⟩
        | some token_config =>
          if mint_authority.key ≠ token_config.admin_pubkey then
            ⟨Except.error unauthorizedMintErr, accounts, []⟩
          else
            match unpackMintSupply mint_account.data with
            | Except.error e => ⟨Except.error e, accounts, []⟩
            | Except.ok current_supply =>
              if (current_supply + amount) % 2 ^ 64 > token_config.max_supply then
                ⟨Except.error maxSupplyExceededErr, accounts, []⟩
              else
                let ix := SplInstruction.mintToIx token_program.key
                  mint_account.key destination_account.key mint_authority.key
                  amount
                ⟨ledger ix, accounts, [ix]⟩
    | _ => ⟨Except.error ProgramError.NotEnoughAccountKeys, accounts, []⟩

/-- lib.rs `process_burn`: decode the amount, take the four accounts, check
the burn authority signed, build and issue the spl burn instruction.  No
zero-amount check and no cap interaction. -/
def process_burn (ledger : Ledger) (accounts : List AccountInfo)
    (instruction_data : List Byte) : HandlerOut :=
  match decode_amount instruction_data with
  | Except.error e => ⟨Except.error e, accounts, []⟩
  | Except.ok amount =>
    match accounts with
    | burn_account :: mint_account :: burn_authority :: token_program :: _ =>
      match check_signer burn_authority with
      | Except.error e => ⟨Except.error e, accounts, []⟩
      | Except.ok _ =>
        let ix := SplInstruction.burnIx token_program.key burn_account.key
          mint_account.key burn_authority.key amount
        ⟨ledger ix, accounts, [ix]⟩
    | _ => ⟨Except.error ProgramError.NotEnoughAccountKeys, accounts, []⟩

/-- lib.rs `process_initialize`: require at least 40 payload bytes (32-byte
admin key, 8-byte little-endian max supply), take the config account,
require its data to hold a serialized `TokenConfig` (41 bytes), parse it,
refuse an already-initialized record with `AccountAlreadyInitialized`,
then write the new record back into the account.  No signature check on
any account. -/
def process_initialize (accounts : List AccountInfo)
    (rest_of_data : List Byte) : HandlerOut :=
  if rest_of_data.length < 40 then
    ⟨Except.error ProgramError.InvalidInstructionData, accounts, []⟩
  else
    match accounts with
    | config_account :: _ =>
      if config_account.data.length < (tokenConfigToBytes tokenConfigDefault).length then
        ⟨Except.error ProgramError.InvalidAccountData, accounts, []⟩
      else
        match tokenConfigFromSlice config_account.data with
        | none => ⟨Except.error ProgramError.InvalidAccountData, accounts, []⟩
        | some token_config =>
          if token_config.initialized then
            ⟨Except.error ProgramError.AccountAlreadyInitialized, accounts, []⟩
          else
            match serializeConfigInto
                ⟨fromLeBytes ((rest_of_data.drop 32).take 8), true,
                  rest_of_data.take 32⟩ config_account.data with
            | (Except.ok _, newData) =>
              ⟨Except.ok (),
                accounts.set 0 { config_account with data := newData }, []⟩
            | (Except.error e, newData) =>
              ⟨Except.error e,
                accounts.set 0 { config_account with data := newData }, []⟩
    | _ => ⟨Except.error ProgramError.NotEnoughAccountKeys, accounts, []⟩

/-- lib.rs `process_instruction`: the dispatcher.  An empty buffer fails
with `InvalidInstructionData`; the first byte selects the operation
(0 transfer, 1 mint, 2 burn, 3 initialize-config, otherwise
`InvalidInstructionData`), the rest is the operand payload. -/
def process_instruction (ledger : Ledger) (accounts : List AccountInfo)
    (instruction_data : List Byte) : HandlerOut :=
  match instruction_data with
  | [] => ⟨Except.error ProgramError.InvalidInstructionData, accounts, []⟩
  | instruction :: rest_of_data =>
    if instruction.val = 0 then process_transfer ledger accounts rest_of_data
    else if instruction.val = 1 then process_mint ledger accounts rest_of_data
    else if instruction.val = 2 then process_burn ledger accounts rest_of_data
    else if instruction.val = 3 then process_initialize accounts rest_of_data
    else ⟨Except.error ProgramError.InvalidInstructionData, accounts, []⟩

end Lib

namespace Main

/-- main.rs `process_transfer`: takes the four accounts first, then decodes
the amount inline (`u64::from_le_bytes(instruction_data.try_into() ...)`,
failing with `InvalidInstructionData` unless exactly 8 bytes), rejects
zero with `InvalidInstructionData`, then builds and issues the spl
transfer instruction.  No local signature check. -/
def process_transfer (ledger : Ledger) (accounts : List AccountInfo)
    (instruction_data : List Byte) : HandlerOut :=
  match accounts with
  | from_account :: to_account :: authority :: token_program :: _ =>
    if instruction_data.length = 8 then
      if fromLeBytes instruction_data = 0 then
        ⟨Except.error ProgramError.InvalidInstructionData, accounts, []⟩
      else
        let ix := SplInstruction.transferIx token_program.key from_account.key
          to_account.key authority.key (fromLeBytes instruction_data)
        ⟨ledger ix, accounts, [ix]⟩
    else ⟨Except.error ProgramError.InvalidInstructionData, accounts, []⟩
  | _ => ⟨Except.error ProgramError.NotEnoughAccountKeys, accounts, []⟩

/-- main.rs `process_mint`: takes the five accounts, decodes the amount
inline (`InvalidInstructionData` unless exactly 8 bytes), loads the
Configuration Record, compares the authority key to the admin key and
fails with `MissingRequiredSignature` on mismatch (main.rs has no
`check_signer` and no `UnauthorizedMint` variant), reads the outstanding
supply, enforces the supply cap with the same unchecked (wrapping) u64
addition as lib.rs, then builds and issues the spl mint_to instruction.
The authority's signer flag is never inspected. -/
def process_mint (ledger : Ledger) (accounts : List AccountInfo)
    (instruction_data : List Byte) : HandlerOut :=
  match accounts with
  | mint_account :: destination_account :: mint_authority ::
      token_program :: config_account :: _ =>
    if instruction_data.length = 8 then
      match tokenConfigFromSlice config_account.data with
      | none => ⟨Except.error ProgramError.InvalidAccountData, accounts, []⟩
      | some token_config =>
        if mint_authority.key ≠ token_config.admin_pubkey then
          ⟨Except.error ProgramError.MissingRequiredSignature, accounts, []⟩
        else
          match unpackMintSupply mint_account.data with
          | Except.error e => ⟨Except.error e, accounts, []⟩
          | Except.ok current_supply =>
            if (current_supply + fromLeBytes instruction_data) % 2 ^ 64 >
                token_config.max_supply then
              ⟨Except.error maxSupplyExceededErr, accounts, []⟩
            else
              let ix := SplInstruction.mintToIx token_program.key
                mint_account.key destination_account.key mint_authority.key
                (fromLeBytes instruction_data)
              ⟨ledger ix, accounts, [ix]⟩
    else ⟨Except.error ProgramError.InvalidInstructionData, accounts, []⟩
  | _ => ⟨Except.error ProgramError.NotEnoughAccountKeys, accounts, []⟩

/-- main.rs `process_burn`: takes the four accounts, decodes the amount
inline (`InvalidInstructionData` unless exactly 8 bytes), then builds and
issues the spl burn instruction.  main.rs performs no signature check in
burn (unlike lib.rs). -/
def process_burn (ledger : Ledger) (accounts : List AccountInfo)
    (instruction_data : List Byte) : HandlerOut :=
  match accounts with
  | burn_account :: mint_account :: burn_authority :: token_program :: _ =>
    if instruction_data.length = 8 then
      let ix := SplInstruction.burnIx token_program.key burn_account.key
        mint_account.key burn_authority.key (fromLeBytes instruction_data)
      ⟨ledger ix, accounts, [ix]⟩
    else ⟨Except.error ProgramError.InvalidInstructionData, accounts, []⟩
  | _ => ⟨Except.error ProgramError.NotEnoughAccountKeys, accounts, []⟩

/-- main.rs `process_initialize`: receives the already-decoded admin key
and max supply, takes the config account, parses its data as a
`TokenConfig` (`InvalidAccountData` on failure), refuses an
already-initialized record, then writes the new record back.  No account
size pre-check (the parse itself pins the length) and no signature
check. -/
def process_initialize (accounts : List AccountInfo)
    (admin_pubkey : List Byte) (max_supply : Nat) : HandlerOut :=
  match accounts with
  | config_account :: _ =>
    match tokenConfigFromSlice config_account.data with
    | none => ⟨Except.error ProgramError.InvalidAccountData, accounts, []⟩
    | some token_config =>
      if token_config.initialized then
        ⟨Except.error ProgramError.AccountAlreadyInitialized, accounts, []⟩
      else
        match serializeConfigInto ⟨max_supply, true, admin_pubkey⟩
            config_account.data with
        | (Except.ok _, newData) =>
          ⟨Except.ok (),
            accounts.set 0 { config_account with data := newData }, []⟩
        | (Except.error e, newData) =>
          ⟨Except.error e,
            accounts.set 0 { config_account with data := newData }, []⟩
  | _ => ⟨Except.error ProgramError.NotEnoughAccountKeys, accounts, []⟩

/-- main.rs `process_instruction`: the dispatcher.  Identical to lib.rs
except that the opcode-3 arm decodes the 40-byte initializer payload
itself (32-byte admin key, 8-byte little-endian max supply; shorter
payloads fail with `InvalidInstructionData`) before calling the
initializer. -/
def process_instruction (ledger : Ledger) (accounts : List AccountInfo)
    (instruction_data : List Byte) : HandlerOut :=
  match instruction_data with
  | [] => ⟨Except.error ProgramError.InvalidInstructionData, accounts, []⟩
  | instruction :: rest_of_data =>
    if instruction.val = 0 then process_transfer ledger accounts rest_of_data
    else if instruction.val = 1 then process_mint ledger accounts rest_of_data
    else if instruction.val = 2 then process_burn ledger accounts rest_of_data
    else if instruction.val = 3 then
      if rest_of_data.length < 40 then
        ⟨Except.error ProgramError.InvalidInstructionData, accounts, []⟩
      else
        process_initialize accounts (rest_of_data.take 32)
          (fromLeBytes ((rest_of_data.drop 32).take 8))
    else ⟨Except.error ProgramError.InvalidInstructionData, accounts, []⟩

end Main

/-! Concrete fixtures used by witnesses and counterexamples. -/

/-- An external ledger that accepts every delegated instruction. -/
def okLedger : Ledger := fun _ => Except.ok ()

/-- A concrete 32-byte pubkey (the admin in the fixtures). -/
def keyA : List Byte := List.replicate 32 (7 : Byte)

/-- A concrete 32-byte pubkey different from `keyA`. -/
def keyB : List Byte := List.replicate 32 (9 : Byte)

/-- A concrete 32-byte pubkey used for the mint-state account. -/
def keyC : List Byte := List.replicate 32 (11 : Byte)

/-- A concrete 32-byte pubkey used for auxiliary accounts. -/
def keyD : List Byte := List.replicate 32 (13 : Byte)

/-- A well-formed 82-byte spl mint-state record with the given outstanding
supply (bytes 36..43) and the initialization flag set (byte 45). -/
def mintStateData (supply : Nat) : List Byte :=
  List.replicate 36 (0 : Byte) ++ u64ToLe 8 supply ++
    [(0 : Byte), (1 : Byte)] ++ List.replicate 36 (0 : Byte)

/-- An account marked as a signer, with empty data. -/
def acctSigned (key : List Byte) : AccountInfo := ⟨key, true, []⟩

/-- An account not marked as a signer, with empty data. -/
def acctUnsigned (key : List Byte) : AccountInfo := ⟨key, false, []⟩

/-- An unsigned account holding a serialized Configuration Record. -/
def cfgAccount (cfg : TokenConfig) : AccountInfo :=
  ⟨keyD, false, tokenConfigToBytes cfg⟩

/-- An unsigned account holding a well-formed mint-state record. -/
def mintAccount (supply : Nat) : AccountInfo := ⟨keyC, false, mintStateData supply⟩

/-! Arithmetic and encoding lemmas. -/

theorem u64ToLe_length (w n : Nat) : (u64ToLe w n).length = w := by
  induction w generalizing n with
  | zero => rfl
  | succ w ih => simp [u64ToLe, ih]

theorem fromLeBytes_u64ToLe (w n : Nat) :
    fromLeBytes (u64ToLe w n) = n % 256 ^ w := by
  induction w generalizing n with
  | zero => simp [u64ToLe, fromLeBytes, Nat.mod_one]
  | succ w ih =>
    rw [u64ToLe, fromLeBytes, ih, pow_succ', Nat.mod_mul]

theorem fromLeBytes_lt (l : List Byte) : fromLeBytes l < 256 ^ l.length := by
  induction l with
  | nil => simp [fromLeBytes]
  | cons b t ih =>
    have hb := b.isLt
    simp only [fromLeBytes, List.length_cons, pow_succ']
    omega

theorem fromLeBytes_lt_two_pow {l : List Byte} (h : l.length = 8) :
    fromLeBytes l < 2 ^ 64 := by
  have h1 := fromLeBytes_lt l
  rw [h] at h1
  norm_num at h1
  exact h1

theorem tokenConfigToBytes_length (c : TokenConfig) :
    (tokenConfigToBytes c).length = 9 + c.admin_pubkey.length := by
  simp [tokenConfigToBytes, u64ToLe_length]
  omega

theorem tokenConfig_roundtrip (c : TokenConfig) (hms : c.max_supply < 2 ^ 64)
    (ha : c.admin_pubkey.length = 32) :
    tokenConfigFromSlice (tokenConfigToBytes c) = some c := by
  obtain ⟨ms, init, admin⟩ := c
  simp only at hms ha
  have hlen : (tokenConfigToBytes ⟨ms, init, admin⟩).length = 41 := by
    rw [tokenConfigToBytes_length]; simp [ha]
  have htake : (tokenConfigToBytes ⟨ms, init, admin⟩).take 8 = u64ToLe 8 ms := by
    unfold tokenConfigToBytes
    exact List.take_left' (u64ToLe_length 8 ms)
  have hget : (tokenConfigToBytes ⟨ms, init, admin⟩).get? 8 =
      some (if init then (1 : Byte) else (0 : Byte)) := by
    unfold tokenConfigToBytes
    rw [List.get?_append_right (by rw [u64ToLe_length])]
    simp [u64ToLe_length]
  have hdrop : (tokenConfigToBytes ⟨ms, init, admin⟩).drop 9 = admin := by
    unfold tokenConfigToBytes
    rw [List.append_cons]
    exact List.drop_left' (by simp [u64ToLe_length])
  have hval : fromLeBytes (u64ToLe 8 ms) = ms := by
    rw [fromLeBytes_u64ToLe]
    exact Nat.mod_eq_of_lt (by norm_num; exact hms)
  unfold tokenConfigFromSlice
  rw [if_pos hlen, hget]
  cases init with
  | false => simp [htake, hdrop, hval]
  | true => simp [htake, hdrop, hval]

theorem tokenConfigFromSlice_length {data : List Byte} {c : TokenConfig}
    (h : tokenConfigFromSlice data = some c) : data.length = 41 := by
  unfold tokenConfigFromSlice at h
  by_cases hl : data.length = 41
  · exact hl
  · rw [if_neg hl] at h
    exact absurd h (by simp)

/-! Frame lemmas: the transfer, mint and burn handlers never write any
account data locally, and the initializer writes only on its success
path. -/

theorem lib_transfer_frame (ledger : Ledger) (accounts : List AccountInfo)
    (d : List Byte) : (Lib.process_transfer ledger accounts d).accounts = accounts := by
  unfold Lib.process_transfer
  repeat' split
  all_goals rfl

theorem lib_mint_frame (ledger : Ledger) (accounts : List AccountInfo)
    (d : List Byte) : (Lib.process_mint ledger accounts d).accounts = accounts := by
  unfold Lib.process_mint
  repeat' split
  all_goals rfl

theorem lib_burn_frame (ledger : Ledger) (accounts : List AccountInfo)
    (d : List Byte) : (Lib.process_burn ledger accounts d).accounts = accounts := by
  unfold Lib.process_burn
  repeat' split
  all_goals rfl

theorem main_transfer_frame (ledger : Ledger) (accounts : List AccountInfo)
    (d : List Byte) : (Main.process_transfer ledger accounts d).accounts = accounts := by
  unfold Main.process_transfer
  repeat' split
  all_goals rfl

theorem main_mint_frame (ledger : Ledger) (accounts : List AccountInfo)
    (d : List Byte) : (Main.process_mint ledger accounts d).accounts = accounts := by
  unfold Main.process_mint
  repeat' split
  all_goals rfl

theorem main_burn_frame (ledger : Ledger) (accounts : List AccountInfo)
    (d : List Byte) : (Main.process_burn ledger accounts d).accounts = accounts := by
  unfold Main.process_burn
  repeat' split
  all_goals rfl

/-- Writing a fresh record into a buffer that held a parsed record (41
bytes) with a 32-byte admin key always fits exactly, so the borsh write
succeeds and replaces the buffer. -/
theorem serialize_ok {buf : List Byte} {admin : List Byte} (ms : Nat)
    (hbuf : buf.length = 41) (hadmin : admin.length = 32) :
    serializeConfigInto ⟨ms, true, admin⟩ buf =
      (Except.ok (), tokenConfigToBytes ⟨ms, true, admin⟩) := by
  have hout : (tokenConfigToBytes (⟨ms, true, admin⟩ : TokenConfig)).length = 41 := by
    rw [tokenConfigToBytes_length]; simp [hadmin]
  unfold serializeConfigInto
  rw [if_pos (by rw [hout, hbuf])]
  have hdrop : buf.drop (tokenConfigToBytes (⟨ms, true, admin⟩ : TokenConfig)).length = [] := by
    rw [hout, ← hbuf]
    exact List.drop_length buf
  rw [hdrop, List.append_nil]

/-- Either a run of the lib.rs initializer leaves the account list
untouched, or it succeeded. -/
theorem lib_init_cases (accounts : List AccountInfo) (d : List Byte) :
    (Lib.process_initialize accounts d).accounts = accounts ∨
      (Lib.process_initialize accounts d).res = Except.ok () := by
  by_cases h40 : d.length < 40
  · left
    unfold Lib.process_initialize
    rw [if_pos h40]
  · cases accounts with
    | nil =>
      left
      unfold Lib.process_initialize
      rw [if_neg h40]
    | cons ca rest =>
      by_cases hsize : ca.data.length < (tokenConfigToBytes tokenConfigDefault).length
      · left
        unfold Lib.process_initialize
        rw [if_neg h40]
        simp only [if_pos hsize]
      · cases hparse : tokenConfigFromSlice ca.data with
        | none =>
          left
          unfold Lib.process_initialize
          rw [if_neg h40]
          simp only [if_neg hsize, hparse]
        | some tc =>
          by_cases hinit : tc.initialized = true
          · left
            unfold Lib.process_initialize
            rw [if_neg h40]
            simp only [if_neg hsize, hparse, if_pos hinit]
          · right
            have hbuf := tokenConfigFromSlice_length hparse
            have hadmin : (d.take 32).length = 32 := by
              rw [List.length_take]
              omega
            unfold Lib.process_initialize
            rw [if_neg h40]
            simp only [if_neg hsize, hparse, if_neg hinit]
            rw [serialize_ok _ hbuf hadmin]

/-- Either a run of the main.rs initializer leaves the account list
untouched, or it succeeded; the write needs the decoded admin key to be 32
bytes (as the dispatcher always supplies). -/
theorem main_init_cases (accounts : List AccountInfo) (admin : List Byte)
    (ms : Nat) (hadmin : admin.length = 32) :
    (Main.process_initialize accounts admin ms).accounts = accounts ∨
      (Main.process_initialize accounts admin ms).res = Except.ok () := by
  cases accounts with
  | nil =>
    left
    unfold Main.process_initialize
    rfl
  | cons ca rest =>
    cases hparse : tokenConfigFromSlice ca.data with
    | none =>
      left
      unfold Main.process_initialize
      simp only [hparse]
    | some tc =>
      by_cases hinit : tc.initialized = true
      · left
        unfold Main.process_initialize
        simp only [hparse, if_pos hinit]
      · right
        have hbuf := tokenConfigFromSlice_length hparse
        unfold Main.process_initialize
        simp only [hparse, if_neg hinit]
        rw [serialize_ok _ hbuf hadmin]

/-- The borsh write into the account buffer can only fail with the io
error. -/
theorem serializeConfigInto_error {c : TokenConfig} {buf : List Byte}
    {e : ProgramError} {nd : List Byte}
    (h : serializeConfigInto c buf = (Except.error e, nd)) :
    e = ProgramError.BorshIoFailed := by
  simp only [serializeConfigInto] at h
  split at h
  · exact absurd h (by simp)
  · simp only [Prod.mk.injEq, Except.error.injEq] at h
    exact h.1.symm

/-- Behavior of a successful (first) lib.rs initialization: the record is
written with the decoded max supply and admin key and the flag set. -/
theorem lib_init_success (ca : AccountInfo) (rest : List AccountInfo)
    (d : List Byte) (cfg : TokenConfig)
    (h40 : 40 ≤ d.length)
    (hparse : tokenConfigFromSlice ca.data = some cfg)
    (hinit : cfg.initialized = false) :
    Lib.process_initialize (ca :: rest) d =
      ⟨Except.ok (),
        { ca with data := tokenConfigToBytes ⟨fromLeBytes ((d.drop 32).take 8), true, d.take 32⟩ } :: rest,
        []⟩ := by
  have hbuf := tokenConfigFromSlice_length hparse
  have hsize : ¬ ca.data.length < (tokenConfigToBytes tokenConfigDefault).length := by
    have h41 : (tokenConfigToBytes tokenConfigDefault).length = 41 := by decide
    omega
  have hadmin : (d.take 32).length = 32 := by
    rw [List.length_take]
    omega
  have hinit' : ¬ cfg.initialized = true := by simp [hinit]
  unfold Lib.process_initialize
  rw [if_neg (by omega)]
  simp only [if_neg hsize, hparse, if_neg hinit']
  rw [serialize_ok _ hbuf hadmin]
  rfl

/-- A lib.rs initialization against an already-initialized record fails
with `AccountAlreadyInitialized` and writes nothing. -/
theorem lib_init_already (ca : AccountInfo) (rest : List AccountInfo)
    (d : List Byte) (cfg : TokenConfig)
    (h40 : 40 ≤ d.length)
    (hparse : tokenConfigFromSlice ca.data = some cfg)
    (hinit : cfg.initialized = true) :
    Lib.process_initialize (ca :: rest) d =
      ⟨Except.error ProgramError.AccountAlreadyInitialized, ca :: rest, []⟩ := by
  have hbuf := tokenConfigFromSlice_length hparse
  have hsize : ¬ ca.data.length < (tokenConfigToBytes tokenConfigDefault).length := by
    have h41 : (tokenConfigToBytes tokenConfigDefault).length = 41 := by decide
    omega
  unfold Lib.process_initialize
  rw [if_neg (by omega)]
  simp only [if_neg hsize, hparse, if_pos hinit]

/-- Behavior of a successful (first) main.rs initialization. -/
theorem main_init_success (ca : AccountInfo) (rest : List AccountInfo)
    (admin : List Byte) (ms : Nat) (cfg : TokenConfig)
    (hadmin : admin.length = 32)
    (hparse : tokenConfigFromSlice ca.data = some cfg)
    (hinit : cfg.initialized = false) :
    Main.process_initialize (ca :: rest) admin ms =
      ⟨Except.ok (),
        { ca with data := tokenConfigToBytes ⟨ms, true, admin⟩ } :: rest,
        []⟩ := by
  have hbuf := tokenConfigFromSlice_length hparse
  have hinit' : ¬ cfg.initialized = true := by simp [hinit]
  unfold Main.process_initialize
  simp only [hparse, if_neg hinit']
  rw [serialize_ok _ hbuf hadmin]
  rfl

/-- A main.rs initialization against an already-initialized record fails
with `AccountAlreadyInitialized` and writes nothing. -/
theorem main_init_already (ca : AccountInfo) (rest : List AccountInfo)
    (admin : List Byte) (ms : Nat) (cfg : TokenConfig)
    (hparse : tokenConfigFromSlice ca.data = some cfg)
    (hinit : cfg.initialized = true) :
    Main.process_initialize (ca :: rest) admin ms =
      ⟨Except.error ProgramError.AccountAlreadyInitialized, ca :: rest, []⟩ := by
  unfold Main.process_initialize
  simp only [hparse, if_pos hinit]

/-- The lib.rs initializer never fails for a missing signature: no branch
of it inspects any signer flag. -/
theorem lib_init_no_sig_err (accounts : List AccountInfo) (d : List Byte) :
    (Lib.process_initialize accounts d).res ≠
      Except.error ProgramError.MissingRequiredSignature := by
  unfold Lib.process_initialize
  repeat' split
  all_goals intro h
  all_goals simp at h
  all_goals
    (rename_i hser
     have hbe := serializeConfigInto_error hser
     rw [hbe] at h
     exact absurd h (by simp))

/-- The main.rs initializer never fails for a missing signature. -/
theorem main_init_no_sig_err (accounts : List AccountInfo)
    (admin : List Byte) (ms : Nat) :
    (Main.process_initialize accounts admin ms).res ≠
      Except.error ProgramError.MissingRequiredSignature := by
  unfold Main.process_initialize
  repeat' split
  all_goals intro h
  all_goals simp at h
  all_goals
    (rename_i hser
     have hbe := serializeConfigInto_error hser
     rw [hbe] at h
     exact absurd h (by simp))

/-- The serialized record's first 8 bytes are the little-endian max
supply. -/
theorem tokenConfigToBytes_take8 (c : TokenConfig) :
    (tokenConfigToBytes c).take 8 = u64ToLe 8 c.max_supply := by
  unfold tokenConfigToBytes
  exact List.take_left' (u64ToLe_length 8 c.max_supply)

/-- The serialized record's ninth byte is the initialization flag. -/
theorem tokenConfigToBytes_get8 (c : TokenConfig) :
    (tokenConfigToBytes c).get? 8 =
      some (if c.initialized then (1 : Byte) else (0 : Byte)) := by
  unfold tokenConfigToBytes
  rw [List.get?_append_right (by rw [u64ToLe_length])]
  simp [u64ToLe_length]

/-- The serialized record's last 32 bytes are the admin key. -/
theorem tokenConfigToBytes_drop9 (c : TokenConfig) :
    (tokenConfigToBytes c).drop 9 = c.admin_pubkey := by
  unfold tokenConfigToBytes
  rw [List.append_cons]
  exact List.drop_left' (by simp [u64ToLe_length])

/-! Claim theorems. -/

/-- C1 (code bug): the supply-cap check uses an unchecked u64 addition,
which wraps modulo `2 ^ 64` in on-chain release builds.  At
current_supply = 2^64 - 1, amount = 1, max_supply = 0 — where the exact
sum 2^64 strictly exceeds the cap and the claim requires a
`MaxSupplyExceeded` failure — the wrapped sum is 0, the check passes and
both variants issue the delegated mint of 1 unit to the ledger. -/
theorem c1_overflow_wraps_and_mints :
    (Lib.process_mint okLedger
      [mintAccount (2 ^ 64 - 1), acctUnsigned keyB, acctSigned keyA,
        acctUnsigned keyD, cfgAccount ⟨0, true, keyA⟩] (u64ToLe 8 1)).res =
      Except.ok () ∧
    (Lib.process_mint okLedger
      [mintAccount (2 ^ 64 - 1), acctUnsigned keyB, acctSigned keyA,
        acctUnsigned keyD, cfgAccount ⟨0, true, keyA⟩] (u64ToLe 8 1)).invocations =
      [SplInstruction.mintToIx keyD keyC keyB keyA 1] ∧
    (Main.process_mint okLedger
      [mintAccount (2 ^ 64 - 1), acctUnsigned keyB, acctSigned keyA,
        acctUnsigned keyD, cfgAccount ⟨0, true, keyA⟩] (u64ToLe 8 1)).res =
      Except.ok () ∧
    (Main.process_mint okLedger
      [mintAccount (2 ^ 64 - 1), acctUnsigned keyB, acctSigned keyA,
        acctUnsigned keyD, cfgAccount ⟨0, true, keyA⟩] (u64ToLe 8 1)).invocations =
      [SplInstruction.mintToIx keyD keyC keyB keyA 1] := by
  refine ⟨by decide, by decide, by decide, by decide⟩

/-- C2 counterexample: the main.rs Mint handler fails an admin mismatch
with the `MissingRequiredSignature` tag, not `UnauthorizedMint`, so the
claim's "fails with the UnauthorizedMint error tag (not any other tag)"
does not hold of the repository's main.rs variant. -/
theorem c2_main_mint_wrong_tag_cex :
    (Main.process_mint okLedger
      [mintAccount 0, acctUnsigned keyD, acctSigned keyB, acctUnsigned keyD,
        cfgAccount ⟨1000, true, keyA⟩] (u64ToLe 8 1)).res =
      Except.error ProgramError.MissingRequiredSignature ∧
    (Main.process_mint okLedger
      [mintAccount 0, acctUnsigned keyD, acctSigned keyB, acctUnsigned keyD,
        cfgAccount ⟨1000, true, keyA⟩] (u64ToLe 8 1)).res ≠
      Except.error unauthorizedMintErr := by
  refine ⟨by decide, by decide⟩

/-- C2 (amended): for a Mint request whose payload decodes, whose five
accounts are present, whose authority signed and whose Configuration
Record parses, an authority different from the admin key makes the lib.rs
handler fail with `UnauthorizedMint` and the main.rs handler fail with
`MissingRequiredSignature`; in both variants no ledger invocation occurs
and no account is written. -/
theorem c2_admin_mismatch_behavior
    (ledger : Ledger) (payload : List Byte) (cfg : TokenConfig)
    (ma dest auth tp ca : AccountInfo) (rest : List AccountInfo)
    (hlen : payload.length = 8)
    (hsig : auth.is_signer = true)
    (hparse : tokenConfigFromSlice ca.data = some cfg)
    (hne : auth.key ≠ cfg.admin_pubkey) :
    Lib.process_mint ledger (ma :: dest :: auth :: tp :: ca :: rest) payload =
      ⟨Except.error unauthorizedMintErr,
        ma :: dest :: auth :: tp :: ca :: rest, []⟩ ∧
    Main.process_mint ledger (ma :: dest :: auth :: tp :: ca :: rest) payload =
      ⟨Except.error ProgramError.MissingRequiredSignature,
        ma :: dest :: auth :: tp :: ca :: rest, []⟩ := by
  constructor
  · unfold Lib.process_mint
    simp [Lib.decode_amount, Lib.check_signer, hlen, hsig, hparse, hne]
  · unfold Main.process_mint
    simp [hlen, hparse, hne]

/-- Witness for C2 at a concrete request: authority `keyB`, admin `keyA`. -/
theorem c2_admin_mismatch_behavior_w :
    Lib.process_mint okLedger
      [mintAccount 0, acctUnsigned keyD, acctSigned keyB, acctUnsigned keyD,
        cfgAccount ⟨1000, true, keyA⟩] (u64ToLe 8 1) =
      ⟨Except.error unauthorizedMintErr,
        [mintAccount 0, acctUnsigned keyD, acctSigned keyB, acctUnsigned keyD,
          cfgAccount ⟨1000, true, keyA⟩], []⟩ ∧
    Main.process_mint okLedger
      [mintAccount 0, acctUnsigned keyD, acctSigned keyB, acctUnsigned keyD,
        cfgAccount ⟨1000, true, keyA⟩] (u64ToLe 8 1) =
      ⟨Except.error ProgramError.MissingRequiredSignature,
        [mintAccount 0, acctUnsigned keyD, acctSigned keyB, acctUnsigned keyD,
          cfgAccount ⟨1000, true, keyA⟩], []⟩ :=
  c2_admin_mismatch_behavior okLedger (u64ToLe 8 1) ⟨1000, true, keyA⟩
    (mintAccount 0) (acctUnsigned keyD) (acctSigned keyB) (acctUnsigned keyD)
    (cfgAccount ⟨1000, true, keyA⟩) []
    (by decide) (by decide) (by decide) (by decide)

/-- C3 counterexample: the main.rs Mint handler performs no signature
check at all — a request whose mint-authority is NOT marked as a signer
(but matches the admin) does not fail with `MissingSignature`; it
succeeds and issues the delegated mint, falsifying the claim for the
repository's main.rs variant. -/
theorem c3_main_unsigned_mint_succeeds_cex :
    (Main.process_mint okLedger
      [mintAccount 0, acctUnsigned keyB, acctUnsigned keyA, acctUnsigned keyD,
        cfgAccount ⟨1000, true, keyA⟩] (u64ToLe 8 5)).res = Except.ok () ∧
    (Main.process_mint okLedger
      [mintAccount 0, acctUnsigned keyB, acctUnsigned keyA, acctUnsigned keyD,
        cfgAccount ⟨1000, true, keyA⟩] (u64ToLe 8 5)).invocations =
      [SplInstruction.mintToIx keyD keyC keyB keyA 5] := by
  refine ⟨by decide, by decide⟩

/-- C3 (amended): in lib.rs, a Mint request whose payload decodes and whose
five accounts are present fails with `MissingSignature` whenever the
mint-authority is unsigned — regardless of the Configuration Record's
content, i.e. before the record is loaded and before the admin
comparison (the check does follow the amount decode and account
extraction); the main.rs Mint handler performs no signature check: on an
otherwise-valid request it issues the delegated mint whatever the
authority's signer flag. -/
theorem c3_signature_check_scope
    (ledger : Ledger) (payload : List Byte)
    (ma dest auth tp ca : AccountInfo) (rest : List AccountInfo)
    (hlen : payload.length = 8) :
    (auth.is_signer = false →
      Lib.process_mint ledger (ma :: dest :: auth :: tp :: ca :: rest) payload =
        ⟨Except.error ProgramError.MissingRequiredSignature,
          ma :: dest :: auth :: tp :: ca :: rest, []⟩) ∧
    (∀ cfg : TokenConfig, ∀ s : Nat,
      tokenConfigFromSlice ca.data = some cfg →
      auth.key = cfg.admin_pubkey →
      unpackMintSupply ma.data = Except.ok s →
      ¬ (s + fromLeBytes payload) % 2 ^ 64 > cfg.max_supply →
      (Main.process_mint ledger (ma :: dest :: auth :: tp :: ca :: rest) payload).invocations =
        [SplInstruction.mintToIx tp.key ma.key dest.key auth.key
          (fromLeBytes payload)]) := by
  constructor
  · intro hsig
    unfold Lib.process_mint
    simp [Lib.decode_amount, Lib.check_signer, hlen, hsig]
  · intro cfg s hparse hadm hsup hcap
    unfold Main.process_mint
    simp [hlen, hparse, hadm, hsup]
    rw [if_neg (by omega)]

/-- Witness for C3 at a concrete request: lib.rs rejects the unsigned
authority even with garbage config data; main.rs mints for an unsigned
admin authority. -/
theorem c3_signature_check_scope_w :
    (acctUnsigned keyA).is_signer = false ∧
    Lib.process_mint okLedger
      [mintAccount 0, acctUnsigned keyB, acctUnsigned keyA, acctUnsigned keyD,
        cfgAccount ⟨1000, true, keyA⟩] (u64ToLe 8 5) =
      ⟨Except.error ProgramError.MissingRequiredSignature,
        [mintAccount 0, acctUnsigned keyB, acctUnsigned keyA, acctUnsigned keyD,
          cfgAccount ⟨1000, true, keyA⟩], []⟩ ∧
    (Main.process_mint okLedger
      [mintAccount 0, acctUnsigned keyB, acctUnsigned keyA, acctUnsigned keyD,
        cfgAccount ⟨1000, true, keyA⟩] (u64ToLe 8 5)).invocations =
      [SplInstruction.mintToIx keyD keyC keyB keyA 5] :=
  ⟨by decide,
    (c3_signature_check_scope okLedger (u64ToLe 8 5) (mintAccount 0)
      (acctUnsigned keyB) (acctUnsigned keyA) (acctUnsigned keyD)
      (cfgAccount ⟨1000, true, keyA⟩) [] (by decide)).1 (by decide),
    (c3_signature_check_scope okLedger (u64ToLe 8 5) (mintAccount 0)
      (acctUnsigned keyB) (acctUnsigned keyA) (acctUnsigned keyD)
      (cfgAccount ⟨1000, true, keyA⟩) [] (by decide)).2
      ⟨1000, true, keyA⟩ 0 (by decide) (by decide) (by decide) (by decide)⟩

/-- C4 counterexample: a Transfer with a nonzero amount and an unsigned
authority does not fail with `MissingSignature` — both variants issue the
delegated transfer instruction to the ledger. -/
theorem c4_unsigned_transfer_invoked_cex :
    (Lib.process_transfer okLedger
      [acctUnsigned keyB, acctUnsigned keyC, acctUnsigned keyA, acctUnsigned keyD]
      (u64ToLe 8 5)).res = Except.ok () ∧
    (Lib.process_transfer okLedger
      [acctUnsigned keyB, acctUnsigned keyC, acctUnsigned keyA, acctUnsigned keyD]
      (u64ToLe 8 5)).invocations =
      [SplInstruction.transferIx keyD keyB keyC keyA 5] ∧
    (Main.process_transfer okLedger
      [acctUnsigned keyB, acctUnsigned keyC, acctUnsigned keyA, acctUnsigned keyD]
      (u64ToLe 8 5)).invocations =
      [SplInstruction.transferIx keyD keyB keyC keyA 5] := by
  refine ⟨by decide, by decide, by decide⟩

/-- C4 (amended): neither Transfer handler performs a local signature
check: with a well-formed nonzero amount and the four accounts present,
both variants build and issue the delegated transfer instruction and
return the ledger's own result, irrespective of the authority's signer
flag (which the handlers never read); signature enforcement is left to
the external ledger/runtime. -/
theorem c4_transfer_no_sig_check
    (ledger : Ledger) (payload : List Byte)
    (source dst auth tp : AccountInfo) (rest : List AccountInfo)
    (hlen : payload.length = 8) (hnz : fromLeBytes payload ≠ 0) :
    Lib.process_transfer ledger (source :: dst :: auth :: tp :: rest) payload =
      ⟨ledger (SplInstruction.transferIx tp.key source.key dst.key auth.key
          (fromLeBytes payload)),
        source :: dst :: auth :: tp :: rest,
        [SplInstruction.transferIx tp.key source.key dst.key auth.key
          (fromLeBytes payload)]⟩ ∧
    Main.process_transfer ledger (source :: dst :: auth :: tp :: rest) payload =
      ⟨ledger (SplInstruction.transferIx tp.key source.key dst.key auth.key
          (fromLeBytes payload)),
        source :: dst :: auth :: tp :: rest,
        [SplInstruction.transferIx tp.key source.key dst.key auth.key
          (fromLeBytes payload)]⟩ := by
  constructor
  · unfold Lib.process_transfer
    simp [Lib.decode_amount, hlen, hnz]
  · unfold Main.process_transfer
    simp [hlen, hnz]

/-- Witness for C4 at a concrete request with an unsigned authority. -/
theorem c4_transfer_no_sig_check_w :
    Lib.process_transfer okLedger
      [acctUnsigned keyB, acctUnsigned keyC, acctUnsigned keyA, acctUnsigned keyD]
      (u64ToLe 8 5) =
      ⟨okLedger (SplInstruction.transferIx keyD keyB keyC keyA
          (fromLeBytes (u64ToLe 8 5))),
        [acctUnsigned keyB, acctUnsigned keyC, acctUnsigned keyA, acctUnsigned keyD],
        [SplInstruction.transferIx keyD keyB keyC keyA
          (fromLeBytes (u64ToLe 8 5))]⟩ ∧
    Main.process_transfer okLedger
      [acctUnsigned keyB, acctUnsigned keyC, acctUnsigned keyA, acctUnsigned keyD]
      (u64ToLe 8 5) =
      ⟨okLedger (SplInstruction.transferIx keyD keyB keyC keyA
          (fromLeBytes (u64ToLe 8 5))),
        [acctUnsigned keyB, acctUnsigned keyC, acctUnsigned keyA, acctUnsigned keyD],
        [SplInstruction.transferIx keyD keyB keyC keyA
          (fromLeBytes (u64ToLe 8 5))]⟩ :=
  c4_transfer_no_sig_check okLedger (u64ToLe 8 5) (acctUnsigned keyB)
    (acctUnsigned keyC) (acctUnsigned keyA) (acctUnsigned keyD) []
    (by decide) (by decide)


/-- C5: the Configuration Record is initialized exactly once.  In both
variants: a first Initialize on an uninitialized record succeeds and
stores the caller-chosen max supply and admin key with the flag set; the
stored bytes parse back to exactly those values; and a second Initialize
— with any payload/arguments — fails with `AccountAlreadyInitialized`
and leaves the account list (hence the stored admin and max supply)
exactly as the first call wrote them. -/
theorem c5_init_exactly_once
    (ca : AccountInfo) (rest : List AccountInfo) (d1 d2 : List Byte)
    (cfg : TokenConfig) (admin1 admin2 : List Byte) (ms1 ms2 : Nat)
    (h1 : 40 ≤ d1.length) (h2 : 40 ≤ d2.length)
    (ha1 : admin1.length = 32) (hms1 : ms1 < 2 ^ 64)
    (hparse : tokenConfigFromSlice ca.data = some cfg)
    (hinit : cfg.initialized = false) :
    (Lib.process_initialize (ca :: rest) d1 =
      ⟨Except.ok (),
        { ca with data := tokenConfigToBytes ⟨fromLeBytes ((d1.drop 32).take 8), true, d1.take 32⟩ } :: rest,
        []⟩) ∧
    (tokenConfigFromSlice
        (tokenConfigToBytes ⟨fromLeBytes ((d1.drop 32).take 8), true, d1.take 32⟩) =
      some ⟨fromLeBytes ((d1.drop 32).take 8), true, d1.take 32⟩) ∧
    (Lib.process_initialize
        ({ ca with data := tokenConfigToBytes ⟨fromLeBytes ((d1.drop 32).take 8), true, d1.take 32⟩ } :: rest) d2 =
      ⟨Except.error ProgramError.AccountAlreadyInitialized,
        { ca with data := tokenConfigToBytes ⟨fromLeBytes ((d1.drop 32).take 8), true, d1.take 32⟩ } :: rest,
        []⟩) ∧
    (Main.process_initialize (ca :: rest) admin1 ms1 =
      ⟨Except.ok (),
        { ca with data := tokenConfigToBytes ⟨ms1, true, admin1⟩ } :: rest,
        []⟩) ∧
    (tokenConfigFromSlice (tokenConfigToBytes ⟨ms1, true, admin1⟩) =
      some ⟨ms1, true, admin1⟩) ∧
    (Main.process_initialize
        ({ ca with data := tokenConfigToBytes ⟨ms1, true, admin1⟩ } :: rest) admin2 ms2 =
      ⟨Except.error ProgramError.AccountAlreadyInitialized,
        { ca with data := tokenConfigToBytes ⟨ms1, true, admin1⟩ } :: rest,
        []⟩) := by
  have hlen8 : ((d1.drop 32).take 8).length = 8 := by
    simp [List.length_take, List.length_drop]
    omega
  have hmsd : fromLeBytes ((d1.drop 32).take 8) < 2 ^ 64 :=
    fromLeBytes_lt_two_pow hlen8
  have hta : (d1.take 32).length = 32 := by
    rw [List.length_take]
    omega
  have hrt1 : tokenConfigFromSlice
      (tokenConfigToBytes ⟨fromLeBytes ((d1.drop 32).take 8), true, d1.take 32⟩) =
      some ⟨fromLeBytes ((d1.drop 32).take 8), true, d1.take 32⟩ :=
    tokenConfig_roundtrip _ hmsd hta
  have hrt2 : tokenConfigFromSlice (tokenConfigToBytes ⟨ms1, true, admin1⟩) =
      some ⟨ms1, true, admin1⟩ :=
    tokenConfig_roundtrip _ hms1 ha1
  refine ⟨lib_init_success ca rest d1 cfg h1 hparse hinit, hrt1, ?_,
    main_init_success ca rest admin1 ms1 cfg ha1 hparse hinit, hrt2, ?_⟩
  · exact lib_init_already _ rest d2 _ h2 hrt1 rfl
  · exact main_init_already _ rest admin2 ms2 _ hrt2 rfl

/-- Witness for C5: initialize with admin `keyB`, max supply 1000, then
try to re-initialize with admin `keyC`, max supply 5. -/
theorem c5_init_exactly_once_w :
    (Lib.process_initialize [cfgAccount ⟨0, false, keyA⟩] (keyB ++ u64ToLe 8 1000) =
      ⟨Except.ok (),
        [{ cfgAccount ⟨0, false, keyA⟩ with data := tokenConfigToBytes ⟨fromLeBytes (((keyB ++ u64ToLe 8 1000).drop 32).take 8), true, (keyB ++ u64ToLe 8 1000).take 32⟩ }],
        []⟩) ∧
    (tokenConfigFromSlice
        (tokenConfigToBytes ⟨fromLeBytes (((keyB ++ u64ToLe 8 1000).drop 32).take 8), true, (keyB ++ u64ToLe 8 1000).take 32⟩) =
      some ⟨fromLeBytes (((keyB ++ u64ToLe 8 1000).drop 32).take 8), true, (keyB ++ u64ToLe 8 1000).take 32⟩) ∧
    (Lib.process_initialize
        [{ cfgAccount ⟨0, false, keyA⟩ with data := tokenConfigToBytes ⟨fromLeBytes (((keyB ++ u64ToLe 8 1000).drop 32).take 8), true, (keyB ++ u64ToLe 8 1000).take 32⟩ }]
        (keyC ++ u64ToLe 8 5) =
      ⟨Except.error ProgramError.AccountAlreadyInitialized,
        [{ cfgAccount ⟨0, false, keyA⟩ with data := tokenConfigToBytes ⟨fromLeBytes (((keyB ++ u64ToLe 8 1000).drop 32).take 8), true, (keyB ++ u64ToLe 8 1000).take 32⟩ }],
        []⟩) ∧
    (Main.process_initialize [cfgAccount ⟨0, false, keyA⟩] keyB 1000 =
      ⟨Except.ok (),
        [{ cfgAccount ⟨0, false, keyA⟩ with data := tokenConfigToBytes ⟨1000, true, keyB⟩ }],
        []⟩) ∧
    (tokenConfigFromSlice (tokenConfigToBytes ⟨1000, true, keyB⟩) =
      some ⟨1000, true, keyB⟩) ∧
    (Main.process_initialize
        [{ cfgAccount ⟨0, false, keyA⟩ with data := tokenConfigToBytes ⟨1000, true, keyB⟩ }] keyC 5 =
      ⟨Except.error ProgramError.AccountAlreadyInitialized,
        [{ cfgAccount ⟨0, false, keyA⟩ with data := tokenConfigToBytes ⟨1000, true, keyB⟩ }],
        []⟩) :=
  c5_init_exactly_once (cfgAccount ⟨0, false, keyA⟩) [] (keyB ++ u64ToLe 8 1000)
    (keyC ++ u64ToLe 8 5) ⟨0, false, keyA⟩ keyB keyC 1000 5
    (by decide) (by decide) (by decide) (by decide) (by decide) (by decide)

/-- C6: whenever the dispatcher returns a failure — any opcode, payload,
account list and ledger behavior — the account list (in particular the
Configuration Record's stored bytes) is exactly what it was at the start
of the request: every failure is atomic with no partial local effect. -/
theorem c6_failure_preserves_accounts
    (ledger : Ledger) (accounts : List AccountInfo) (d : List Byte)
    (e : ProgramError) :
    ((Lib.process_instruction ledger accounts d).res = Except.error e →
      (Lib.process_instruction ledger accounts d).accounts = accounts) ∧
    ((Main.process_instruction ledger accounts d).res = Except.error e →
      (Main.process_instruction ledger accounts d).accounts = accounts) := by
  constructor
  · intro h
    cases d with
    | nil => rfl
    | cons op rest =>
      unfold Lib.process_instruction at h ⊢
      dsimp only at h ⊢
      by_cases h0 : op.val = 0
      · rw [if_pos h0]
        exact lib_transfer_frame ledger accounts rest
      · rw [if_neg h0] at h ⊢
        by_cases h1 : op.val = 1
        · rw [if_pos h1]
          exact lib_mint_frame ledger accounts rest
        · rw [if_neg h1] at h ⊢
          by_cases h2 : op.val = 2
          · rw [if_pos h2]
            exact lib_burn_frame ledger accounts rest
          · rw [if_neg h2] at h ⊢
            by_cases h3 : op.val = 3
            · rw [if_pos h3] at h ⊢
              rcases lib_init_cases accounts rest with hacc | hok
              · exact hacc
              · rw [hok] at h
                exact absurd h (by simp)
            · rw [if_neg h3]
  · intro h
    cases d with
    | nil => rfl
    | cons op rest =>
      unfold Main.process_instruction at h ⊢
      dsimp only at h ⊢
      by_cases h0 : op.val = 0
      · rw [if_pos h0]
        exact main_transfer_frame ledger accounts rest
      · rw [if_neg h0] at h ⊢
        by_cases h1 : op.val = 1
        · rw [if_pos h1]
          exact main_mint_frame ledger accounts rest
        · rw [if_neg h1] at h ⊢
          by_cases h2 : op.val = 2
          · rw [if_pos h2]
            exact main_burn_frame ledger accounts rest
          · rw [if_neg h2] at h ⊢
            by_cases h3 : op.val = 3
            · rw [if_pos h3] at h ⊢
              by_cases h40 : rest.length < 40
              · rw [if_pos h40]
              · rw [if_neg h40] at h ⊢
                have ha : (rest.take 32).length = 32 := by
                  rw [List.length_take]
                  omega
                rcases main_init_cases accounts (rest.take 32)
                    (fromLeBytes ((rest.drop 32).take 8)) ha with hacc | hok
                · exact hacc
                · rw [hok] at h
                  exact absurd h (by simp)
            · rw [if_neg h3]

/-- Witness for C6: an unknown opcode fails and leaves the account list
unchanged in both variants. -/
theorem c6_failure_preserves_accounts_w :
    (Lib.process_instruction okLedger [acctUnsigned keyA] [(9 : Byte)]).accounts =
      [acctUnsigned keyA] ∧
    (Main.process_instruction okLedger [acctUnsigned keyA] [(9 : Byte)]).accounts =
      [acctUnsigned keyA] :=
  ⟨(c6_failure_preserves_accounts okLedger [acctUnsigned keyA] [(9 : Byte)]
      ProgramError.InvalidInstructionData).1 (by decide),
    (c6_failure_preserves_accounts okLedger [acctUnsigned keyA] [(9 : Byte)]
      ProgramError.InvalidInstructionData).2 (by decide)⟩

/-- C7 counterexample: in main.rs a Transfer operand of the wrong length
fails with the `InvalidRequest` tag (`InvalidInstructionData`), not with
`InvalidAmount`, so the claim's "fails with the InvalidAmount error tag"
does not hold of the repository's main.rs variant. -/
theorem c7_main_wrong_tag_cex :
    (Main.process_transfer okLedger
      [acctUnsigned keyB, acctUnsigned keyC, acctUnsigned keyA, acctUnsigned keyD]
      [(1 : Byte), (0 : Byte), (0 : Byte)]).res =
      Except.error ProgramError.InvalidInstructionData ∧
    (Main.process_transfer okLedger
      [acctUnsigned keyB, acctUnsigned keyC, acctUnsigned keyA, acctUnsigned keyD]
      [(1 : Byte), (0 : Byte), (0 : Byte)]).res ≠
      Except.error invalidAmountErr := by
  refine ⟨by decide, by decide⟩

/-- C7 (amended): in lib.rs, a Transfer/Mint/Burn operand whose length is
not exactly 8 bytes fails with `InvalidAmount`, and a zero Transfer
amount fails with `InvalidAmount`; in main.rs (with the accounts present,
which it takes first) the same malformed operands and the zero Transfer
amount fail with `InvalidInstructionData` instead. -/
theorem c7_amount_validation
    (ledger : Ledger) (payload : List Byte)
    (a1 a2 a3 a4 a5 : AccountInfo) (rest : List AccountInfo) :
    (payload.length ≠ 8 →
      (Lib.process_transfer ledger (a1 :: a2 :: a3 :: a4 :: rest) payload).res =
        Except.error invalidAmountErr ∧
      (Lib.process_mint ledger (a1 :: a2 :: a3 :: a4 :: a5 :: rest) payload).res =
        Except.error invalidAmountErr ∧
      (Lib.process_burn ledger (a1 :: a2 :: a3 :: a4 :: rest) payload).res =
        Except.error invalidAmountErr ∧
      (Main.process_transfer ledger (a1 :: a2 :: a3 :: a4 :: rest) payload).res =
        Except.error ProgramError.InvalidInstructionData ∧
      (Main.process_mint ledger (a1 :: a2 :: a3 :: a4 :: a5 :: rest) payload).res =
        Except.error ProgramError.InvalidInstructionData ∧
      (Main.process_burn ledger (a1 :: a2 :: a3 :: a4 :: rest) payload).res =
        Except.error ProgramError.InvalidInstructionData) ∧
    (payload.length = 8 → fromLeBytes payload = 0 →
      (Lib.process_transfer ledger (a1 :: a2 :: a3 :: a4 :: rest) payload).res =
        Except.error invalidAmountErr ∧
      (Main.process_transfer ledger (a1 :: a2 :: a3 :: a4 :: rest) payload).res =
        Except.error ProgramError.InvalidInstructionData) := by
  constructor
  · intro hlen
    refine ⟨?_, ?_, ?_, ?_, ?_, ?_⟩
    · unfold Lib.process_transfer
      simp [Lib.decode_amount, hlen]
    · unfold Lib.process_mint
      simp [Lib.decode_amount, hlen]
    · unfold Lib.process_burn
      simp [Lib.decode_amount, hlen]
    · unfold Main.process_transfer
      simp [hlen]
    · unfold Main.process_mint
      simp [hlen]
    · unfold Main.process_burn
      simp [hlen]
  · intro hlen hz
    constructor
    · unfold Lib.process_transfer
      simp [Lib.decode_amount, hlen, hz]
    · unfold Main.process_transfer
      simp [hlen, hz]

/-- Witness for C7: a 3-byte operand, and an 8-byte zero operand. -/
theorem c7_amount_validation_w :
    ((Lib.process_transfer okLedger
        [acctUnsigned keyB, acctUnsigned keyC, acctUnsigned keyA, acctUnsigned keyD]
        [(1 : Byte), (0 : Byte), (0 : Byte)]).res = Except.error invalidAmountErr ∧
      (Lib.process_mint okLedger
        [acctUnsigned keyB, acctUnsigned keyC, acctUnsigned keyA, acctUnsigned keyD,
          acctUnsigned keyD]
        [(1 : Byte), (0 : Byte), (0 : Byte)]).res = Except.error invalidAmountErr ∧
      (Lib.process_burn okLedger
        [acctUnsigned keyB, acctUnsigned keyC, acctUnsigned keyA, acctUnsigned keyD]
        [(1 : Byte), (0 : Byte), (0 : Byte)]).res = Except.error invalidAmountErr ∧
      (Main.process_transfer okLedger
        [acctUnsigned keyB, acctUnsigned keyC, acctUnsigned keyA, acctUnsigned keyD]
        [(1 : Byte), (0 : Byte), (0 : Byte)]).res =
          Except.error ProgramError.InvalidInstructionData ∧
      (Main.process_mint okLedger
        [acctUnsigned keyB, acctUnsigned keyC, acctUnsigned keyA, acctUnsigned keyD,
          acctUnsigned keyD]
        [(1 : Byte), (0 : Byte), (0 : Byte)]).res =
          Except.error ProgramError.InvalidInstructionData ∧
      (Main.process_burn okLedger
        [acctUnsigned keyB, acctUnsigned keyC, acctUnsigned keyA, acctUnsigned keyD]
        [(1 : Byte), (0 : Byte), (0 : Byte)]).res =
          Except.error ProgramError.InvalidInstructionData) ∧
    ((Lib.process_transfer okLedger
        [acctUnsigned keyB, acctUnsigned keyC, acctUnsigned keyA, acctUnsigned keyD]
        (u64ToLe 8 0)).res = Except.error invalidAmountErr ∧
      (Main.process_transfer okLedger
        [acctUnsigned keyB, acctUnsigned keyC, acctUnsigned keyA, acctUnsigned keyD]
        (u64ToLe 8 0)).res = Except.error ProgramError.InvalidInstructionData) :=
  ⟨(c7_amount_validation okLedger [(1 : Byte), (0 : Byte), (0 : Byte)]
      (acctUnsigned keyB) (acctUnsigned keyC) (acctUnsigned keyA)
      (acctUnsigned keyD) (acctUnsigned keyD) []).1 (by decide),
    (c7_amount_validation okLedger (u64ToLe 8 0)
      (acctUnsigned keyB) (acctUnsigned keyC) (acctUnsigned keyA)
      (acctUnsigned keyD) (acctUnsigned keyD) []).2 (by decide) (by decide)⟩

/-- C8: serializing a Configuration Record (64-bit max supply, 32-byte
admin key) and deserializing the result yields identical field values,
and the persisted layout is `max_supply` (bytes 0..7, little-endian),
`initialized` (byte 8), `admin_identity` (bytes 9..40), in that order. -/
theorem c8_config_roundtrip (c : TokenConfig) (hms : c.max_supply < 2 ^ 64)
    (ha : c.admin_pubkey.length = 32) :
    tokenConfigFromSlice (tokenConfigToBytes c) = some c ∧
    (tokenConfigToBytes c).take 8 = u64ToLe 8 c.max_supply ∧
    (tokenConfigToBytes c).get? 8 =
      some (if c.initialized then (1 : Byte) else (0 : Byte)) ∧
    (tokenConfigToBytes c).drop 9 = c.admin_pubkey :=
  ⟨tokenConfig_roundtrip c hms ha, tokenConfigToBytes_take8 c,
    tokenConfigToBytes_get8 c, tokenConfigToBytes_drop9 c⟩

/-- Witness for C8 at a concrete record. -/
theorem c8_config_roundtrip_w :
    tokenConfigFromSlice (tokenConfigToBytes ⟨1000, true, keyA⟩) =
      some ⟨1000, true, keyA⟩ ∧
    (tokenConfigToBytes ⟨1000, true, keyA⟩).take 8 = u64ToLe 8 1000 ∧
    (tokenConfigToBytes ⟨1000, true, keyA⟩).get? 8 =
      some (if (true : Bool) then (1 : Byte) else (0 : Byte)) ∧
    (tokenConfigToBytes ⟨1000, true, keyA⟩).drop 9 = keyA :=
  c8_config_roundtrip ⟨1000, true, keyA⟩ (by decide) (by decide)

/-- C9: neither variant's Initialize handler inspects any signer flag: on
every account list and payload it never fails with `MissingSignature`;
and an unsigned caller initializing an uninitialized record succeeds,
storing the caller-chosen admin key and max supply. -/
theorem c9_init_needs_no_signature
    (accounts : List AccountInfo) (d : List Byte) (admin : List Byte)
    (ms : Nat) (ca : AccountInfo) (rest : List AccountInfo)
    (cfg : TokenConfig) :
    ((Lib.process_initialize accounts d).res ≠
      Except.error ProgramError.MissingRequiredSignature) ∧
    ((Main.process_initialize accounts admin ms).res ≠
      Except.error ProgramError.MissingRequiredSignature) ∧
    (tokenConfigFromSlice ca.data = some cfg → cfg.initialized = false →
      40 ≤ d.length → ca.is_signer = false →
      Lib.process_initialize (ca :: rest) d =
        ⟨Except.ok (),
          { ca with data := tokenConfigToBytes ⟨fromLeBytes ((d.drop 32).take 8), true, d.take 32⟩ } :: rest,
          []⟩) ∧
    (tokenConfigFromSlice ca.data = some cfg → cfg.initialized = false →
      admin.length = 32 → ca.is_signer = false →
      Main.process_initialize (ca :: rest) admin ms =
        ⟨Except.ok (),
          { ca with data := tokenConfigToBytes ⟨ms, true, admin⟩ } :: rest,
          []⟩) := by
  refine ⟨lib_init_no_sig_err accounts d, main_init_no_sig_err accounts admin ms,
    ?_, ?_⟩
  · intro hparse hinit h40 _
    exact lib_init_success ca rest d cfg h40 hparse hinit
  · intro hparse hinit ha _
    exact main_init_success ca rest admin ms cfg ha hparse hinit

/-- Witness for C9: an unsigned caller initializes the record. -/
theorem c9_init_needs_no_signature_w :
    ((Lib.process_initialize [cfgAccount ⟨0, false, keyA⟩] (keyB ++ u64ToLe 8 1000)).res ≠
      Except.error ProgramError.MissingRequiredSignature) ∧
    ((Main.process_initialize [cfgAccount ⟨0, false, keyA⟩] keyB 1000).res ≠
      Except.error ProgramError.MissingRequiredSignature) ∧
    (tokenConfigFromSlice (cfgAccount ⟨0, false, keyA⟩).data = some ⟨0, false, keyA⟩ →
      (⟨0, false, keyA⟩ : TokenConfig).initialized = false →
      40 ≤ (keyB ++ u64ToLe 8 1000).length →
      (cfgAccount ⟨0, false, keyA⟩).is_signer = false →
      Lib.process_initialize [cfgAccount ⟨0, false, keyA⟩] (keyB ++ u64ToLe 8 1000) =
        ⟨Except.ok (),
          [{ cfgAccount ⟨0, false, keyA⟩ with data := tokenConfigToBytes ⟨fromLeBytes (((keyB ++ u64ToLe 8 1000).drop 32).take 8), true, (keyB ++ u64ToLe 8 1000).take 32⟩ }],
          []⟩) ∧
    (tokenConfigFromSlice (cfgAccount ⟨0, false, keyA⟩).data = some ⟨0, false, keyA⟩ →
      (⟨0, false, keyA⟩ : TokenConfig).initialized = false →
      keyB.length = 32 →
      (cfgAccount ⟨0, false, keyA⟩).is_signer = false →
      Main.process_initialize [cfgAccount ⟨0, false, keyA⟩] keyB 1000 =
        ⟨Except.ok (),
          [{ cfgAccount ⟨0, false, keyA⟩ with data := tokenConfigToBytes ⟨1000, true, keyB⟩ }],
          []⟩) :=
  c9_init_needs_no_signature [cfgAccount ⟨0, false, keyA⟩] (keyB ++ u64ToLe 8 1000)
    keyB 1000 (cfgAccount ⟨0, false, keyA⟩) [] ⟨0, false, keyA⟩

/-- C10: Mint and Burn accept a zero amount in both variants — no
zero-amount check exists in either handler, and with the other
preconditions satisfied the delegated ledger instruction is issued with
amount 0. -/
theorem c10_zero_amount_allowed
    (ledger : Ledger) (payload : List Byte) (cfg : TokenConfig) (s : Nat)
    (ma dest auth tp ca b1 b2 : AccountInfo) (rest : List AccountInfo)
    (hlen : payload.length = 8) (hzero : fromLeBytes payload = 0)
    (hsig : auth.is_signer = true)
    (hparse : tokenConfigFromSlice ca.data = some cfg)
    (hadm : auth.key = cfg.admin_pubkey)
    (hsup : unpackMintSupply ma.data = Except.ok s)
    (hcap : ¬ s % 2 ^ 64 > cfg.max_supply) :
    (Lib.process_mint ledger (ma :: dest :: auth :: tp :: ca :: rest) payload).invocations =
      [SplInstruction.mintToIx tp.key ma.key dest.key auth.key 0] ∧
    (Main.process_mint ledger (ma :: dest :: auth :: tp :: ca :: rest) payload).invocations =
      [SplInstruction.mintToIx tp.key ma.key dest.key auth.key 0] ∧
    (Lib.process_burn ledger (b1 :: b2 :: auth :: tp :: rest) payload).invocations =
      [SplInstruction.burnIx tp.key b1.key b2.key auth.key 0] ∧
    (Main.process_burn ledger (b1 :: b2 :: auth :: tp :: rest) payload).invocations =
      [SplInstruction.burnIx tp.key b1.key b2.key auth.key 0] := by
  refine ⟨?_, ?_, ?_, ?_⟩
  · unfold Lib.process_mint
    simp [Lib.decode_amount, Lib.check_signer, hlen, hzero, hsig, hparse, hadm, hsup]
    rw [if_neg (by omega)]
  · unfold Main.process_mint
    simp [hlen, hzero, hparse, hadm, hsup]
    rw [if_neg (by omega)]
  · unfold Lib.process_burn
    simp [Lib.decode_amount, Lib.check_signer, hlen, hzero, hsig]
  · unfold Main.process_burn
    simp [hlen, hzero]

/-- Witness for C10 at a concrete zero-amount request. -/
theorem c10_zero_amount_allowed_w :
    (Lib.process_mint okLedger
      [mintAccount 3, acctUnsigned keyB, acctSigned keyA, acctUnsigned keyD,
        cfgAccount ⟨1000, true, keyA⟩] (u64ToLe 8 0)).invocations =
      [SplInstruction.mintToIx keyD keyC keyB keyA 0] ∧
    (Main.process_mint okLedger
      [mintAccount 3, acctUnsigned keyB, acctSigned keyA, acctUnsigned keyD,
        cfgAccount ⟨1000, true, keyA⟩] (u64ToLe 8 0)).invocations =
      [SplInstruction.mintToIx keyD keyC keyB keyA 0] ∧
    (Lib.process_burn okLedger
      [acctUnsigned keyB, mintAccount 3, acctSigned keyA, acctUnsigned keyD]
      (u64ToLe 8 0)).invocations =
      [SplInstruction.burnIx keyD keyB keyC keyA 0] ∧
    (Main.process_burn okLedger
      [acctUnsigned keyB, mintAccount 3, acctSigned keyA, acctUnsigned keyD]
      (u64ToLe 8 0)).invocations =
      [SplInstruction.burnIx keyD keyB keyC keyA 0] :=
  c10_zero_amount_allowed okLedger (u64ToLe 8 0) ⟨1000, true, keyA⟩ 3
    (mintAccount 3) (acctUnsigned keyB) (acctSigned keyA) (acctUnsigned keyD)
    (cfgAccount ⟨1000, true, keyA⟩) (acctUnsigned keyB) (mintAccount 3) []
    (by decide) (by decide) (by decide) (by decide) (by decide) (by decide)
    (by decide)

end TokenSwap
